import Mathlib

/-!
Verification of the imgtools command-line image editor's geometry/color
mini-language, anchor resolver and watermark compositing pipeline.

The Rust source (src/lib.rs, src/main.rs) is embedded shallowly:
strings are `List Char`, u32/u8/usize values are `Nat` with explicit
wrap-around where the source's unsigned arithmetic can wrap, and each
`FromStr` implementation becomes a total Lean function returning
`Except`.  Error messages in the source are `&'static str` values; here
each distinct message is a constructor of an error type.
-/

/-- View of a Lean string as the list of its characters (the model of a
Rust `&str`). -/
def chars (s : String) : List Char := s.data

/-- Model of Rust `str::to_lowercase` restricted to the basic latin
range, applied character by character (the grammar identifiers are all
ASCII). -/
def lowerL (s : List Char) : List Char := s.map Char.toLower

/-- Model of Rust `str::split_once(sep)`: split at the first occurrence
of `sep`, returning the parts before and after it. -/
def splitOnceChar (sep : Char) : List Char → Option (List Char × List Char)
  | [] => none
  | c :: rest =>
    if c = sep then some ([], rest)
    else (splitOnceChar sep rest).map (fun p => (c :: p.1, p.2))

/-- Model of Rust `str::split(sep)`: split on every occurrence of `sep`,
keeping empty pieces (the empty string yields one empty piece). -/
def splitChar (sep : Char) : List Char → List (List Char)
  | [] => [[]]
  | c :: rest =>
    if c = sep then [] :: splitChar sep rest
    else
      match splitChar sep rest with
      | h :: t => (c :: h) :: t
      | [] => [[c]]

/-- Model of Rust `str::trim`: strip leading and trailing whitespace. -/
def trimL (s : List Char) : List Char :=
  ((s.dropWhile Char.isWhitespace).reverse.dropWhile Char.isWhitespace).reverse

/-- Model of Rust `str::trim_end_matches(c)`: strip every trailing
occurrence of `c`. -/
def trimEndMatchesChar (c : Char) (s : List Char) : List Char :=
  (s.reverse.dropWhile (· = c)).reverse

/-- Model of Rust `str::ends_with(c)`. -/
def endsWithChar (c : Char) (s : List Char) : Bool :=
  s.getLast? = some c

/-- Model of Rust's `FromStr` for unsigned integers with exclusive upper
bound `bound` (`2^32` for `u32`, `2^8` for `u8`, `2^64` for `usize`):
an optional leading plus sign, then one or more ASCII digits, rejected
when the value reaches `bound` (overflow). -/
def parseDigits? (bound : Nat) (digits : List Char) : Option Nat :=
  if digits ≠ [] ∧ digits.all Char.isDigit then
    if digits.foldl (fun acc c => acc * 10 + (c.toNat - 48)) 0 < bound then
      some (digits.foldl (fun acc c => acc * 10 + (c.toNat - 48)) 0)
    else none
  else none

def parseUnsigned? (bound : Nat) (s : List Char) : Option Nat :=
  match s with
  | '+' :: rest => parseDigits? bound rest
  | s => parseDigits? bound s

/-- Rust `u32::from_str`. -/
def parseU32? : List Char → Option Nat := parseUnsigned? (2 ^ 32)

/-- Rust `u8::from_str`. -/
def parseU8? : List Char → Option Nat := parseUnsigned? (2 ^ 8)

/-- Rust `usize::from_str` (64-bit target). -/
def parseUsize? : List Char → Option Nat := parseUnsigned? (2 ^ 64)

deriving instance DecidableEq for Except

/-- The crop grammar's target type (`Crop` in src/lib.rs): nine anchored
kinds carrying `(width, height)` plus `Custom(x, y, width, height)`. -/
inductive Crop where
  | center (w h : Nat)
  | topLeft (w h : Nat)
  | topCenter (w h : Nat)
  | topRight (w h : Nat)
  | middleLeft (w h : Nat)
  | middleRight (w h : Nat)
  | bottomLeft (w h : Nat)
  | bottomCenter (w h : Nat)
  | bottomRight (w h : Nat)
  | custom (x y w h : Nat)
  deriving DecidableEq, Repr

/-- The distinct error messages of `impl FromStr for Crop`, one
constructor per `&'static str` the source can return. -/
inductive CropError where
  | unterminated
  | nonNumeric
  | arityMismatch
  | missingOpenParen
  deriving DecidableEq, Repr

/-- Body of `Crop::from_str` after the initial `to_lowercase` call:
split at the first open paren, require the remainder to end with a
closing paren, strip all trailing closing parens, split the interior on
commas, trim and parse every token as `u32`, then match the trimmed
identifier against the argument count. -/
def parseCropGo (s : List Char) : Except CropError Crop :=
  match splitOnceChar '(' s with
  | some (name, nums) =>
    if endsWithChar ')' nums then
      match (splitChar ',' (trimEndMatchesChar ')' nums)).mapM
          (fun t => parseU32? (trimL t)) with
      | some vals =>
        match vals with
        | [w, h] =>
          if trimL name = chars "center" then .ok (.center w h)
          else if trimL name = chars "topleft" then .ok (.topLeft w h)
          else if trimL name = chars "topcenter" then .ok (.topCenter w h)
          else if trimL name = chars "topright" then .ok (.topRight w h)
          else if trimL name = chars "middleleft" then .ok (.middleLeft w h)
          else if trimL name = chars "middleright" then .ok (.middleRight w h)
          else if trimL name = chars "bottomleft" then .ok (.bottomLeft w h)
          else if trimL name = chars "bottomcenter" then .ok (.bottomCenter w h)
          else if trimL name = chars "bottomright" then .ok (.bottomRight w h)
          else .error .arityMismatch
        | [x, y, w, h] =>
          if trimL name = chars "custom" then .ok (.custom x y w h)
          else .error .arityMismatch
        | _ => .error .arityMismatch
      | none => .error .nonNumeric
    else .error .unterminated
  | none => .error .missingOpenParen

/-- `Crop::from_str` (src/lib.rs): lower-case the input, then parse. -/
def parseCrop (s : List Char) : Except CropError Crop :=
  parseCropGo (lowerL s)

/-- The placement grammar's target type (`Position` in src/lib.rs). -/
inductive Position where
  | center
  | topLeft
  | topCenter
  | topRight
  | middleLeft
  | middleRight
  | bottomLeft
  | bottomCenter
  | bottomRight
  | custom (x y : Nat)
  | flatLay (spacing : Nat)
  deriving DecidableEq, Repr

/-- The distinct error values of `impl FromStr for Position`; the
`unknown` message embeds the offending input string, as the source's
`format!` does. -/
inductive PositionError where
  | invalidCustomCoords
  | invalidCustomArity
  | invalidFlatLay
  | unknown (s : List Char)
  deriving DecidableEq, Repr

/-- `Position::from_str` (src/lib.rs).  The nine fixed identifiers are
matched against the lower-cased input, but the wildcard arm of the
source's `match` tests the ORIGINAL string `s` for the `custom(`/
`flat-lay(` shapes and slices the original string, exactly as the Rust
code does. -/
def parsePosition (s : List Char) : Except PositionError Position :=
  if lowerL s = chars "center" then .ok .center
  else if lowerL s = chars "top-left" then .ok .topLeft
  else if lowerL s = chars "top-center" then .ok .topCenter
  else if lowerL s = chars "top-right" then .ok .topRight
  else if lowerL s = chars "middle-left" then .ok .middleLeft
  else if lowerL s = chars "middle-right" then .ok .middleRight
  else if lowerL s = chars "bottom-left" then .ok .bottomLeft
  else if lowerL s = chars "bottom-center" then .ok .bottomCenter
  else if lowerL s = chars "bottom-right" then .ok .bottomRight
  else if (chars "custom(").isPrefixOf s && endsWithChar ')' s then
    match splitChar ',' ((s.drop 7).dropLast) with
    | [c1, c2] =>
      match parseU32? (trimL c1), parseU32? (trimL c2) with
      | some x, some y => .ok (.custom x y)
      | _, _ => .error .invalidCustomCoords
    | _ => .error .invalidCustomArity
  else if (chars "flat-lay(").isPrefixOf s && endsWithChar ')' s then
    match parseUsize? (trimL ((s.drop 9).dropLast)) with
    | some v => .ok (.flatLay v)
    | none => .error .invalidFlatLay
  else .error (.unknown s)

/-- The color grammar's target type (`Color` in src/lib.rs). -/
inductive Color where
  | white
  | black
  | red
  | green
  | blue
  | rgba (r g b a : Nat)
  deriving DecidableEq, Repr

/-- The distinct error messages of `impl FromStr for Color`.  The
unknown-color message interpolates the offending input, and the
source's wildcard `_` arm does not rebind `s`, so the interpolated
string is the ORIGINAL, not the lower-cased, input (src/lib.rs:437-440);
the payload records it. -/
inductive ColorError where
  | invalidRgbaArity
  | invalidComponent
  | unknownColor (s : List Char)
  deriving DecidableEq, Repr

/-- `Color::from_str` (src/lib.rs): the five preset names and the
`rgba(...)` arm match against the lower-cased input (the guard pattern
rebinds `s` to the lower-cased string, so the slicing and the component
parsing also read the lower-cased string), but the final wildcard arm
does not rebind `s` and embeds the ORIGINAL input in its unknown-color
error. -/
def parseColor (s : List Char) : Except ColorError Color :=
  if lowerL s = chars "white" then .ok .white
  else if lowerL s = chars "black" then .ok .black
  else if lowerL s = chars "red" then .ok .red
  else if lowerL s = chars "green" then .ok .green
  else if lowerL s = chars "blue" then .ok .blue
  else if (chars "rgba(").isPrefixOf (lowerL s) &&
      endsWithChar ')' (lowerL s) then
    match (splitChar ',' (((lowerL s).drop 5).dropLast)).map trimL with
    | [p1, p2, p3, p4] =>
      match parseU8? p1, parseU8? p2, parseU8? p3, parseU8? p4 with
      | some r, some g, some b, some a => .ok (.rgba r g b a)
      | _, _, _, _ => .error .invalidComponent
    | _ => .error .invalidRgbaArity
  else .error (.unknownColor s)

/-- The output-format type (`Format` in src/lib.rs). -/
inductive Format where
  | png
  | jpeg
  | webp
  | bmp
  | avif
  | tiff
  deriving DecidableEq, Repr

/-- `impl ToString for Format` (src/lib.rs). -/
def formatToString : Format → List Char
  | .png => chars "png"
  | .jpeg => chars "jpeg"
  | .webp => chars "webp"
  | .bmp => chars "bmp"
  | .avif => chars "avif"
  | .tiff => chars "tiff"

/-- The single error message of `impl FromStr for Format`. -/
inductive FormatError where
  | unsupported
  deriving DecidableEq, Repr

/-- `Format::from_str` (src/lib.rs): lower-case, then match the six
format names (`jpg` is an alias for `jpeg`). -/
def parseFormat (s : List Char) : Except FormatError Format :=
  if lowerL s = chars "png" then .ok .png
  else if lowerL s = chars "jpeg" || lowerL s = chars "jpg" then .ok .jpeg
  else if lowerL s = chars "webp" then .ok .webp
  else if lowerL s = chars "bmp" then .ok .bmp
  else if lowerL s = chars "avif" then .ok .avif
  else if lowerL s = chars "tiff" then .ok .tiff
  else .error .unsupported

/-- Wrapping `u32` subtraction: Rust's `a - b` on `u32` values, which
wraps modulo `2^32` when `b > a` (release-profile semantics; the debug
profile would panic at the same inputs). -/
def sub32 (a b : Nat) : Nat :=
  if b ≤ a then a - b else a + 2 ^ 32 - b

/-- The crop resolver: the `Command::Crop` match arm of src/main.rs,
mapping a parsed `Crop` and the canvas size `(width, height)` to the
`(x, y, w, h)` rectangle handed to `crop_imm`.  All subtraction is the
source's unchecked `u32` subtraction. -/
def resolveCrop (c : Crop) (width height : Nat) : Nat × Nat × Nat × Nat :=
  match c with
  | .center w h => (sub32 width w / 2, sub32 height h / 2, w, h)
  | .topLeft w h => (0, 0, w, h)
  | .topCenter w h => (sub32 width w / 2, 0, w, h)
  | .topRight w h => (sub32 width w, 0, w, h)
  | .middleLeft w h => (0, sub32 height h / 2, w, h)
  | .middleRight w h => (sub32 width w, sub32 height h / 2, w, h)
  | .bottomLeft w h => (0, sub32 height h, w, h)
  | .bottomCenter w h => (sub32 width w / 2, sub32 height h, w, h)
  | .bottomRight w h => (sub32 width w, sub32 height h, w, h)
  | .custom x y w h => (x, y, w, h)

/-- The placement resolver: the `Position` match of the watermark arm in
src/main.rs, mapping the position, canvas size `(width, height)`, the
rotated overlay size `(w, h)` and the margin to the `(x, y)` offset
passed to `overlay`.  The `FlatLay` arm is `unreachable!()` in the
source because the tiling branch returns first; it is modelled as
`(0, 0)` and never used. -/
def resolvePosition (p : Position) (width height w h margin : Nat) :
    Nat × Nat :=
  match p with
  | .center => (sub32 width w / 2, sub32 height h / 2)
  | .topLeft => (margin, margin)
  | .topCenter => (sub32 width w / 2, margin)
  | .topRight => (sub32 (sub32 width w) margin, margin)
  | .middleLeft => (margin, sub32 height h / 2)
  | .middleRight => (sub32 (sub32 width w) margin, sub32 height h / 2)
  | .bottomLeft => (margin, sub32 (sub32 height h) margin)
  | .bottomCenter => (sub32 width w / 2, sub32 (sub32 height h) margin)
  | .bottomRight => (sub32 (sub32 width w) margin, sub32 (sub32 height h) margin)
  | .custom x y => (x, y)
  | .flatLay _ => (0, 0)

/-- The nine fixed anchors shared by the crop and placement grammars. -/
inductive Anchor where
  | center
  | topLeft
  | topCenter
  | topRight
  | middleLeft
  | middleRight
  | bottomLeft
  | bottomCenter
  | bottomRight
  deriving DecidableEq, Repr

/-- The crop variant of a fixed anchor with target size `(w, h)`. -/
def anchorCrop (a : Anchor) (w h : Nat) : Crop :=
  match a with
  | .center => .center w h
  | .topLeft => .topLeft w h
  | .topCenter => .topCenter w h
  | .topRight => .topRight w h
  | .middleLeft => .middleLeft w h
  | .middleRight => .middleRight w h
  | .bottomLeft => .bottomLeft w h
  | .bottomCenter => .bottomCenter w h
  | .bottomRight => .bottomRight w h

/-- The placement variant of a fixed anchor. -/
def anchorPos (a : Anchor) : Position :=
  match a with
  | .center => .center
  | .topLeft => .topLeft
  | .topCenter => .topCenter
  | .topRight => .topRight
  | .middleLeft => .middleLeft
  | .middleRight => .middleRight
  | .bottomLeft => .bottomLeft
  | .bottomCenter => .bottomCenter
  | .bottomRight => .bottomRight

/-- The anchor opposite with respect to the canvas center. -/
def oppAnchor (a : Anchor) : Anchor :=
  match a with
  | .center => .center
  | .topLeft => .bottomRight
  | .topCenter => .bottomCenter
  | .topRight => .bottomLeft
  | .middleLeft => .middleRight
  | .middleRight => .middleLeft
  | .bottomLeft => .topRight
  | .bottomCenter => .topCenter
  | .bottomRight => .topLeft

/-- One `for` loop of the flat-lay tiling in src/main.rs:
`(start..n).step_by(s)` unrolled with explicit fuel (each iteration
consumes one unit; `n` units suffice whenever `s ≥ 1`). -/
def stepByFrom (n s : Nat) : Nat → Nat → List Nat
  | 0, _ => []
  | fuel + 1, start =>
    if start < n then start :: stepByFrom n s fuel (start + s) else []

/-- Rust `(0..n).step_by(s)`: the visited indices `0, s, 2s, ...` below
`n`.  The source panics when `s = 0`; the model is only used with
`s ≥ 1`. -/
def stepRange (n s : Nat) : List Nat := stepByFrom n s n 0

/-- The flat-lay tiling loop of src/main.rs: the `(x, y)` grid points at
which `overlay(&mut img, &rotated, x, y)` is called, outer loop over `y`
in `(0..height).step_by(spacing)`, inner loop over `x` in
`(0..width).step_by(spacing)`. -/
def tilePoints (width height spacing : Nat) : List (Nat × Nat) :=
  (stepRange height spacing).flatMap
    (fun y => (stepRange width spacing).map (fun x => (x, y)))

/-- The two possible shapes of the watermark compositing stage in
src/main.rs: the flat-lay tiling branch (taken first, carrying the
spacing) or the single-placement branch. -/
inductive WatermarkBranch where
  | tile (spacing : Nat)
  | place
  deriving DecidableEq, Repr

/-- The branch the watermark arm of src/main.rs takes after rotation:
`if let Position::FlatLay(spacing) = position` enters tiling, every
other position falls through to single placement. -/
def watermarkBranch (p : Position) : WatermarkBranch :=
  match p with
  | .flatLay spacing => .tile spacing
  | _ => .place

/-- The rotation-angle validation at the top of the watermark arm of
src/main.rs: `(0.0..=360.0).contains(&rotate)`, i.e. the inclusive
range check, with the angle modelled as a rational. -/
def rotationInRange (r : ℚ) : Bool :=
  decide (0 ≤ r) && decide (r ≤ 360)

/-- The degree-to-radian conversion of src/main.rs,
`rotate / 180.0 * PI`, with the angle and the `PI` constant modelled as
rationals. -/
def watermarkRadians (pi r : ℚ) : ℚ := r / 180 * pi

/-- The nine fixed anchor identifiers of the position grammar. -/
def anchorNames : List (List Char) :=
  [chars "center", chars "top-left", chars "top-center", chars "top-right",
   chars "middle-left", chars "middle-right", chars "bottom-left",
   chars "bottom-center", chars "bottom-right"]

/-- `Char.ofNat` evaluated inside the valid range used by
`Char.toLower`: the code point survives the round trip. -/
theorem toNat_ofNat_of_lt (n : Nat) (h : n < 55296) :
    (Char.ofNat n).toNat = n := by
  have hv : n.isValidChar := Or.inl h
  rw [Char.ofNat, dif_pos hv]
  rfl

/-- Lower-casing a character is idempotent. -/
theorem toLower_toLower (c : Char) : c.toLower.toLower = c.toLower := by
  unfold Char.toLower
  by_cases h : c.toNat ≥ 65 ∧ c.toNat ≤ 90
  · rw [if_pos h]
    have ht : (Char.ofNat (c.toNat + 32)).toNat = c.toNat + 32 :=
      toNat_ofNat_of_lt _ (by omega)
    rw [if_neg (by omega)]
  · rw [if_neg h, if_neg h]

/-- Lower-casing a string is idempotent. -/
theorem lowerL_idem (s : List Char) : lowerL (lowerL s) = lowerL s := by
  simp [lowerL, Function.comp_def, toLower_toLower]

/-- A successful digit-string parse is below its bound. -/
theorem parseDigits?_lt {bound : Nat} {s : List Char} {v : Nat}
    (h : parseDigits? bound s = some v) : v < bound := by
  unfold parseDigits? at h
  split at h
  · split at h
    · exact Option.some.inj h ▸ ‹_›
    · exact absurd h (by simp)
  · exact absurd h (by simp)

/-- A successful unsigned parse is below its bound. -/
theorem parseUnsigned?_lt {bound : Nat} {s : List Char} {v : Nat}
    (h : parseUnsigned? bound s = some v) : v < bound := by
  unfold parseUnsigned? at h
  split at h <;> exact parseDigits?_lt h

/-- Characterization of the fueled `step_by` loop: with enough fuel and
a positive stride, the visited values are exactly the stride multiples
offset from `start` that stay below `n`. -/
theorem mem_stepByFrom {n s : Nat} (hs : 1 ≤ s) :
    ∀ (fuel start x : Nat), n ≤ start + fuel →
      (x ∈ stepByFrom n s fuel start ↔ (∃ k, x = start + k * s) ∧ x < n) := by
  intro fuel
  induction fuel with
  | zero =>
    intro start x hle
    simp only [stepByFrom, List.not_mem_nil, false_iff]
    rintro ⟨⟨k, rfl⟩, hlt⟩
    omega
  | succ m ih =>
    intro start x hle
    simp only [stepByFrom]
    split
    · simp only [List.mem_cons]
      constructor
      · rintro (rfl | hmem)
        · exact ⟨⟨0, by omega⟩, ‹_›⟩
        · obtain ⟨⟨k, rfl⟩, hlt⟩ := (ih (start + s) x (by omega)).mp hmem
          exact ⟨⟨k + 1, by ring⟩, hlt⟩
      · rintro ⟨⟨k, rfl⟩, hlt⟩
        match k with
        | 0 => exact Or.inl (by omega)
        | k + 1 =>
          refine Or.inr ((ih (start + s) _ (by omega)).mpr ⟨⟨k, by ring⟩, hlt⟩)
    · simp only [List.not_mem_nil, false_iff]
      rintro ⟨⟨k, rfl⟩, hlt⟩
      omega

/-- Membership in `stepRange`: exactly the multiples of the stride below
the bound. -/
theorem mem_stepRange {n s x : Nat} (hs : 1 ≤ s) :
    x ∈ stepRange n s ↔ (∃ k, x = k * s) ∧ x < n := by
  rw [stepRange, mem_stepByFrom hs n 0 x (by omega)]
  simp

example : parseCrop (chars "center(100,200)") = .ok (.center 100 200) := by decide
example : parseCrop (chars "CENTER(100,200)") = .ok (.center 100 200) := by decide
example : parseCrop (chars "custom(10,20,100,200)") = .ok (.custom 10 20 100 200) := by decide
example : parseCrop (chars "center ( 100 , 200 )") = .ok (.center 100 200) := by decide
example : parseCrop (chars "center(100)") = .error .arityMismatch := by decide
example : parseCrop (chars "center(100,200") = .error .unterminated := by decide
example : parseCrop (chars "center(-100,200)") = .error .nonNumeric := by decide
example : parseCrop (chars "center100,200") = .error .missingOpenParen := by decide
example : parsePosition (chars "top-right") = .ok .topRight := by decide
example : parsePosition (chars "BOTTOM-RIGHT") = .ok .bottomRight := by decide
example : parsePosition (chars "custom(1, 2)") = .ok (.custom 1 2) := by decide
example : parsePosition (chars "flat-lay(40)") = .ok (.flatLay 40) := by decide
example : parsePosition (chars "Custom(1,2)") = .error (.unknown (chars "Custom(1,2)")) := by decide
example : parseColor (chars "RGBA(10, 20, 30, 40)") = .ok (.rgba 10 20 30 40) := by decide
example : parseColor (chars "rgba(256,0,0,0)") = .error .invalidComponent := by decide
example : parseColor (chars "rgba(1,2,3)") = .error .invalidRgbaArity := by decide
example : parseFormat (chars "JPG") = .ok .jpeg := by decide

/-- C10: for every `Format` value, parsing its canonical string
rendering returns the same value: `Format::from_str(f.to_string()) ==
Ok(f)` for all six formats. -/
theorem format_roundtrip (f : Format) :
    parseFormat (formatToString f) = .ok f := by
  cases f <;> decide

/-- C8: the crop grammar fails on each malformed shape with the error
the source assigns to it — a negative number fails the unsigned parse,
an empty argument list fails, wrong arity (`center(100)`) fails with the
arity message, a missing closing parenthesis (`center(100,200`) fails
with the termination message, those two errors are distinct, and
whitespace inside the parentheses (including around commas) is
tolerated in successful parses. -/
theorem crop_grammar_errors :
    parseCrop (chars "center(-100,200)") = .error .nonNumeric ∧
    parseCrop (chars "center()") = .error .nonNumeric ∧
    parseCrop (chars "center(100)") = .error .arityMismatch ∧
    parseCrop (chars "center(100,200,300)") = .error .arityMismatch ∧
    parseCrop (chars "center(100,200") = .error .unterminated ∧
    parseCrop (chars "center(100)") ≠ parseCrop (chars "center(100,200") ∧
    parseCrop (chars "center ( 100 , 200 )") = .ok (.center 100 200) ∧
    parseCrop (chars "custom( 10 , 20 , 100 , 200 )") =
      .ok (.custom 10 20 100 200) := by
  decide

/-- C2 (failing input): resolving the anchored crop `topright(10,5)` and
the anchored placement `top-right` (10x5 overlay, margin 20) against a
4x4 canvas raises no error at all — the resolver is total and the
unsigned subtraction wraps modulo `2^32`, yielding coordinates far
outside the canvas instead of the `GeometryError` the specification
mandates. -/
theorem crop_overflow_wraps :
    resolveCrop (.topRight 10 5) 4 4 = (4294967290, 0, 10, 5) ∧
    resolvePosition .topRight 4 4 10 5 20 = (4294967270, 20) := by
  decide

/-- C6 (failing input): the position string `flat-lay(0)` parses
successfully, and the watermark stage dispatches `FlatLay 0` into the
tiling branch (the only validation before it, the rotation-range check,
passes at the default angle 0); nothing rejects a zero spacing before
the tiling loop, whose `step_by(0)` panics at runtime in the source. -/
theorem flat_lay_zero_reaches_tiling :
    parsePosition (chars "flat-lay(0)") = .ok (.flatLay 0) ∧
    watermarkBranch (.flatLay 0) = .tile 0 ∧
    rotationInRange 0 = true := by
  decide

/-- C5: with positive spacing `s`, the flat-lay tiling composites the
overlay exactly at the grid points `(k*s, j*s)` with `k*s < canvas_w`
and `j*s < canvas_h`, starting at `(0,0)`; in particular flat-lay(40) on
a 120x120 canvas places tiles at x,y in 0, 40, 80. -/
theorem flat_lay_grid (width height spacing x y : Nat)
    (hs : 1 ≤ spacing) :
    ((x, y) ∈ tilePoints width height spacing ↔
      ((∃ k, x = k * spacing) ∧ x < width) ∧
      ((∃ j, y = j * spacing) ∧ y < height)) ∧
    tilePoints 120 120 40 =
      [(0, 0), (40, 0), (80, 0), (0, 40), (40, 40), (80, 40),
       (0, 80), (40, 80), (80, 80)] := by
  constructor
  · simp only [tilePoints, List.mem_flatMap, List.mem_map]
    constructor
    · rintro ⟨y', hy', x', hx', heq⟩
      obtain ⟨rfl, rfl⟩ := Prod.mk.injEq .. ▸ heq
      exact ⟨(mem_stepRange hs).mp hx', (mem_stepRange hs).mp hy'⟩
    · rintro ⟨hx, hy⟩
      exact ⟨y, (mem_stepRange hs).mpr hy, x, (mem_stepRange hs).mpr hx, rfl⟩
  · decide

/-- C5 witness: the theorem applied to the concrete 120x120 canvas with
spacing 40. -/
theorem flat_lay_grid_witness :
    tilePoints 120 120 40 =
      [(0, 0), (40, 0), (80, 0), (0, 40), (40, 40), (80, 40),
       (0, 80), (40, 80), (80, 80)] :=
  (flat_lay_grid 120 120 40 0 0 (by decide)).2

/-- C9: every rgba component the color parser accepts is independently
in 0..255 (an out-of-range component is a parse-time error, never a
clamp); concretely `rgba(255,0,128,64)` parses to `Rgba(255,0,128,64)`
and `rgba(256,0,0,0)` fails. -/
theorem rgba_component_range (s : List Char) (r g b a : Nat)
    (h : parseColor s = .ok (.rgba r g b a)) :
    (r < 256 ∧ g < 256 ∧ b < 256 ∧ a < 256) ∧
    parseColor (chars "rgba(255,0,128,64)") = .ok (.rgba 255 0 128 64) ∧
    parseColor (chars "rgba(256,0,0,0)") = .error .invalidComponent := by
  refine ⟨?_, by decide, by decide⟩
  unfold parseColor at h
  repeat' split at h
  all_goals cases h
  rename_i hr hg hb ha
  exact ⟨parseUnsigned?_lt hr, parseUnsigned?_lt hg,
    parseUnsigned?_lt hb, parseUnsigned?_lt ha⟩

/-- C9 witness: the theorem applied to the accepting input
`rgba(255,0,128,64)`. -/
theorem rgba_component_range_witness :
    (255 < 256 ∧ 0 < 256 ∧ 128 < 256 ∧ 64 < 256) ∧
    parseColor (chars "rgba(255,0,128,64)") = .ok (.rgba 255 0 128 64) ∧
    parseColor (chars "rgba(256,0,0,0)") = .error .invalidComponent :=
  rgba_component_range (chars "rgba(255,0,128,64)") 255 0 128 64 (by decide)

/-- C7: the watermark rotation angle passes validation exactly when it
lies in the inclusive range [0, 360]; a rejected angle is genuinely
outside that range (no wrap-around), and an accepted angle is converted
to radians as `angle / 180 * pi`. -/
theorem rotation_validation (r pi : ℚ) :
    (rotationInRange r = true ↔ 0 ≤ r ∧ r ≤ 360) ∧
    (rotationInRange r = false → r < 0 ∨ 360 < r) ∧
    (rotationInRange r = true → watermarkRadians pi r = r / 180 * pi) := by
  refine ⟨by simp [rotationInRange], ?_, fun _ => rfl⟩
  intro hfalse
  simp only [rotationInRange, Bool.and_eq_false_iff, decide_eq_false_iff_not,
    not_le] at hfalse
  exact hfalse

/-- C7 witness: the theorem applied at the out-of-range angle 400 and
the in-range angle 90. -/
theorem rotation_validation_witness :
    (rotationInRange 400 = false ∧ ((400 : ℚ) < 0 ∨ (360 : ℚ) < 400)) ∧
    (rotationInRange 90 = true ∧
      watermarkRadians (355 / 113) 90 = 90 / 180 * (355 / 113)) :=
  ⟨⟨by decide, (rotation_validation 400 1).2.1 (by decide)⟩,
   ⟨by decide, (rotation_validation 90 (355 / 113)).2.2 (by decide)⟩⟩

/-- C1: for each of the nine fixed anchors, when the target size fits
the canvas (crop) and the target size plus the margin fits the canvas
(placement), the resolved top-left coordinates keep the whole rectangle
inside the canvas (`x + w <= canvas_w`, `y + h <= canvas_h`), and the
coordinates of an anchor and of its opposite are symmetric about the
canvas center up to one pixel of integer-division rounding
(`x + x_opp + w` is `canvas_w` or `canvas_w - 1`, likewise vertically). -/
theorem anchor_resolution (a : Anchor) (width height w h margin : Nat)
    (hw : w ≤ width) (hh : h ≤ height)
    (hmw : w + margin ≤ width) (hmh : h + margin ≤ height) :
    ((resolveCrop (anchorCrop a w h) width height).1 + w ≤ width ∧
     (resolveCrop (anchorCrop a w h) width height).2.1 + h ≤ height) ∧
    ((resolvePosition (anchorPos a) width height w h margin).1 + w ≤ width ∧
     (resolvePosition (anchorPos a) width height w h margin).2 + h ≤ height) ∧
    (width ≤ (resolveCrop (anchorCrop a w h) width height).1 +
        (resolveCrop (anchorCrop (oppAnchor a) w h) width height).1 + w + 1 ∧
     (resolveCrop (anchorCrop a w h) width height).1 +
        (resolveCrop (anchorCrop (oppAnchor a) w h) width height).1 + w ≤ width ∧
     height ≤ (resolveCrop (anchorCrop a w h) width height).2.1 +
        (resolveCrop (anchorCrop (oppAnchor a) w h) width height).2.1 + h + 1 ∧
     (resolveCrop (anchorCrop a w h) width height).2.1 +
        (resolveCrop (anchorCrop (oppAnchor a) w h) width height).2.1 + h ≤ height) ∧
    (width ≤ (resolvePosition (anchorPos a) width height w h margin).1 +
        (resolvePosition (anchorPos (oppAnchor a)) width height w h margin).1 + w + 1 ∧
     (resolvePosition (anchorPos a) width height w h margin).1 +
        (resolvePosition (anchorPos (oppAnchor a)) width height w h margin).1 + w ≤ width ∧
     height ≤ (resolvePosition (anchorPos a) width height w h margin).2 +
        (resolvePosition (anchorPos (oppAnchor a)) width height w h margin).2 + h + 1 ∧
     (resolvePosition (anchorPos a) width height w h margin).2 +
        (resolvePosition (anchorPos (oppAnchor a)) width height w h margin).2 + h ≤ height) := by
  cases a <;>
    simp only [anchorCrop, anchorPos, oppAnchor, resolveCrop, resolvePosition,
      sub32] <;>
    split_ifs <;> omega

/-- C1 witness: the theorem applied to the top-left anchor on a 100x80
canvas with a 30x20 target and margin 5. -/
theorem anchor_resolution_witness :
    (resolveCrop (anchorCrop .topLeft 30 20) 100 80).1 + 30 ≤ 100 ∧
    (resolvePosition (anchorPos .topLeft) 100 80 30 20 5).1 + 30 ≤ 100 :=
  ⟨(anchor_resolution .topLeft 100 80 30 20 5 (by decide) (by decide)
      (by decide) (by decide)).1.1,
   (anchor_resolution .topLeft 100 80 30 20 5 (by decide) (by decide)
      (by decide) (by decide)).2.1.1⟩

/-- C3 counterexample: `parse(to_lowercase(s))` and `parse(s)` disagree.
For the position grammar at `s = "Custom(1,2)"` the lower-cased string
parses to `Custom(1,2)` while the original mixed-case string is
rejected, because the source's wildcard match arm tests the original
(not the lower-cased) string for the `custom(`/`flat-lay(` shapes.  For
the color grammar at `s = "FooBar"` both sides fail, but the two
unknown-color errors embed different strings, because the wildcard arm
interpolates the original input into its message. -/
theorem position_case_sensitivity :
    parsePosition (lowerL (chars "Custom(1,2)")) = .ok (.custom 1 2) ∧
    parsePosition (chars "Custom(1,2)") =
      .error (.unknown (chars "Custom(1,2)")) ∧
    parsePosition (lowerL (chars "Custom(1,2)")) ≠
      parsePosition (chars "Custom(1,2)") ∧
    parseColor (lowerL (chars "FooBar")) =
      .error (.unknownColor (chars "foobar")) ∧
    parseColor (chars "FooBar") = .error (.unknownColor (chars "FooBar")) ∧
    parseColor (lowerL (chars "FooBar")) ≠ parseColor (chars "FooBar") := by
  decide

/-- C3 amended: the crop grammar is case-insensitive outright
(`parse(to_lowercase(s)) = parse(s)` for every string).  The color
grammar is case-insensitive up to the unknown-color error's payload:
either the two results are equal, or both are unknown-color errors
embedding the lower-cased and the original input respectively — in
particular successful parses agree exactly.  The position grammar is
case-insensitive on the nine fixed anchor identifiers; its parenthesized
`custom(x,y)` and `flat-lay(n)` forms are matched against the original
string and therefore must already be lower-case. -/
theorem parse_case_insensitivity (s : List Char) :
    parseCrop (lowerL s) = parseCrop s ∧
    (parseColor (lowerL s) = parseColor s ∨
      (parseColor (lowerL s) = .error (.unknownColor (lowerL s)) ∧
       parseColor s = .error (.unknownColor s))) ∧
    (∀ c : Color, parseColor (lowerL s) = .ok c ↔ parseColor s = .ok c) ∧
    (lowerL s ∈ anchorNames → parsePosition (lowerL s) = parsePosition s) := by
  have hco : parseColor (lowerL s) = parseColor s ∨
      (parseColor (lowerL s) = .error (.unknownColor (lowerL s)) ∧
       parseColor s = .error (.unknownColor s)) := by
    unfold parseColor
    rw [lowerL_idem]
    split_ifs <;> first | exact Or.inl rfl | exact Or.inr ⟨rfl, rfl⟩
  refine ⟨?_, hco, ?_, ?_⟩
  · rw [parseCrop, parseCrop, lowerL_idem]
  · intro c
    rcases hco with h | ⟨h1, h2⟩
    · rw [h]
    · rw [h1, h2]
      exact ⟨fun hc => absurd hc (by simp), fun hc => absurd hc (by simp)⟩
  · intro hmem
    simp only [anchorNames, List.mem_cons, List.not_mem_nil, or_false] at hmem
    rcases hmem with h | h | h | h | h | h | h | h | h <;>
      · unfold parsePosition
        rw [lowerL_idem, h]
        rfl

/-- C3 amended witness: the theorem applied at the mixed-case fixed
anchor `Top-Left` and at the mixed-case color `Blue`. -/
theorem parse_case_insensitivity_witness :
    lowerL (chars "Top-Left") ∈ anchorNames ∧
    parsePosition (lowerL (chars "Top-Left")) =
      parsePosition (chars "Top-Left") ∧
    (parseColor (lowerL (chars "Blue")) = .ok .blue ↔
      parseColor (chars "Blue") = .ok .blue) :=
  ⟨by decide, (parse_case_insensitivity (chars "Top-Left")).2.2.2 (by decide),
   (parse_case_insensitivity (chars "Blue")).2.2.1 .blue⟩
